import Mathlib

/-!
# Verification of the patent-claim verification session state machine

Shallow embedding of the verification session core of `app.py`:
the session dict, `_make_session`, `start_verification`,
`start_verification_full` and the streaming chat handler
`handle_chat_stream`, together with the invariants of the reachable
session states.

External collaborators are modelled by their observable interface:
the answer stream (`stream_answer`) by the list of fragments it yields
before succeeding or raising, and the report sink (`save_qa_to_docx`)
by recording each invocation with its arguments and by an optional
exception message.  Timestamps are passed in as an explicit parameter.
-/

namespace DraftClaimVerifier

/-- One role-tagged chat message, as the dicts
`\x7b"role": ..., "content": ...\x7d` of `app.py`. -/
structure Msg where
  role : String
  content : String
deriving DecidableEq, Repr

/-- The session dict of the Verify tab.  `current_answer` is `none` for
Python `None`; approved pairs carry the possibly-`None` answer exactly as
the Python tuples do. -/
structure Session where
  phase : String
  questions : List String
  current_index : Nat
  current_question : String
  current_answer : Option String
  approved_qa : List (String × Option String)
  output_path : String
  model : String
  id_text : String
  extra_text : String
deriving DecidableEq, Repr

/-- The `\x7b"phase": "idle"\x7d` dict; fields the dict does not carry are
modelled by inert defaults (the idle branches never read them). -/
def idleSession : Session :=
  { phase := "idle", questions := [], current_index := 0, current_question := "",
    current_answer := none, approved_qa := [], output_path := "", model := "",
    id_text := "", extra_text := "" }

/-- Outcome of one `stream_answer` call: the fragments yielded, and for a
failing stream the fragments consumed before the exception plus its text. -/
inductive StreamResult where
  | ok (chunks : List String)
  | fail (chunks : List String) (err : String)
deriving DecidableEq, Repr

/-- One observable result of running the `handle_chat_stream` generator:
every `yield`ed triple, every `save_qa_to_docx` invocation (pairs and
path), and every `stream_answer` invocation
(question, id_text, extra_text, user_context, model). -/
structure ChatResult where
  yields : List (List Msg × Session × Option String)
  sinkCalls : List (List (String × Option String) × String)
  streamRequests : List (String × String × String × String × String)
deriving DecidableEq, Repr

/-- `_POSITIVE_WORDS` of `app.py`. -/
def _POSITIVE_WORDS : List String :=
  ["yes", "y", "approve", "approved", "accept", "accepted", "good", "ok", "okay", "save"]

/-- `_NEGATIVE_WORDS` of `app.py`. -/
def _NEGATIVE_WORDS : List String :=
  ["no", "n", "reject", "rejected", "retry", "redo", "again", "bad", "nope"]

/-- Python `str.strip()` with no argument: drop leading and trailing
whitespace. -/
def pyStrip (s : String) : String :=
  ⟨((s.data.dropWhile Char.isWhitespace).reverse.dropWhile Char.isWhitespace).reverse⟩

/-- Python `str.lower()` (ASCII case folding, which covers every keyword
the classifier compares against). -/
def pyLower (s : String) : String :=
  ⟨s.data.map Char.toLower⟩

/-- Worker for `splitWs`: `cur` holds the current word reversed. -/
def splitWsAux : List Char → List Char → List String
  | [], cur => if cur = [] then [] else [⟨cur.reverse⟩]
  | c :: rest, cur =>
      if c.isWhitespace then
        if cur = [] then splitWsAux rest []
        else String.mk cur.reverse :: splitWsAux rest []
      else splitWsAux rest (c :: cur)

/-- Python `str.split()` with no argument: split on whitespace runs,
discarding empty pieces. -/
def splitWs (s : String) : List String :=
  splitWsAux s.data []

/-- Non-emptiness of the intersection of a word list with a word set,
Python `words & SET`. -/
def intersects (words dict : List String) : Bool :=
  words.any (fun w => dict.contains w)

/-- Python truthiness of an optional string: `None` and `""` are falsy. -/
def falsyOpt : Option String → Bool
  | none => true
  | some s => s = ""

/-- Python `needle in hay` on strings: `needle` occurs as a contiguous
substring of `hay`. -/
def strContains (hay needle : String) : Bool :=
  hay.data.tails.any (fun t => needle.data.isPrefixOf t)

/-- The model guard `not model or "no models" in (model or "").lower()`. -/
def invalidModel (model : Option String) : Bool :=
  falsyOpt model || strContains (pyLower (model.getD "")) "no models"

/-- `_make_session` of `app.py`; the timestamp is explicit. -/
def _make_session (questions : List String) (model : String)
    (id_text : String) (extra_text : String) (timestamp : String) : Session :=
  { phase := "asking",
    questions := questions,
    current_index := 0,
    current_question := questions.getD 0 "",
    current_answer := none,
    approved_qa := [],
    output_path := "outputs/qa_report_" ++ timestamp ++ ".docx",
    model := model,
    id_text := id_text,
    extra_text := extra_text }

/-- `start_verification` of `app.py`: initialise or reset a verification
session and show the first question. -/
def start_verification (id_text : Option String) (questions : List String)
    (model : Option String) (timestamp : String) :
    List Msg × Session × Option String :=
  if falsyOpt id_text then
    ([⟨"assistant", "⚠ Please load documents first using **Load Documents**."⟩],
     idleSession, none)
  else if questions = [] then
    ([⟨"assistant",
       "⚠ No questions (comments) found in the patent claim document.\n\n" ++
       "Add Word comments to your patent claim .docx — each comment becomes a verification question."⟩],
     idleSession, none)
  else if invalidModel model then
    ([⟨"assistant", "⚠ Please select a valid ollama model."⟩], idleSession, none)
  else
    let session := _make_session questions (model.getD "") (id_text.getD "") "" timestamp
    let total := questions.length
    let first_q := questions.getD 0 ""
    ([⟨"assistant",
       "🚀 Verification started — **" ++ toString total ++ " question(s)** to verify.\n\n" ++
       "**Question 1 of " ++ toString total ++ ":**\n\n> " ++ first_q ++ "\n\n" ++
       "Provide any additional context that might help answer this question, " ++
       "or just press **Submit** with an empty message to answer from the disclosure only."⟩],
     session, none)

/-- `start_verification_full` of `app.py`: like `start_verification` but
also stores `extra_text` (and re-stores `id_text`) in the session. -/
def start_verification_full (id_text extra_text : Option String)
    (questions : List String) (model : Option String) (timestamp : String) :
    List Msg × Session × Option String :=
  let r := start_verification id_text questions model timestamp
  if r.2.1.phase = "asking" then
    (r.1, { r.2.1 with extra_text := extra_text.getD "", id_text := id_text.getD "" }, r.2.2)
  else r

/-- The running concatenations shown while streaming: after each consumed
chunk, `history[-1]` holds the accumulation so far and a yield happens. -/
def streamYields (base : List Msg) (session : Session) (chunks : List String) :
    List (List Msg × Session × Option String) :=
  ((chunks.scanl (· ++ ·) "").drop 1).map
    (fun acc => (base ++ [⟨"assistant", acc⟩], session, none))

/-- The feedback prompt appended after a successful generation. -/
def feedbackPrompt (idx total : Nat) : String :=
  "\n\n---\n*Answer for Question " ++ toString (idx + 1) ++ " of " ++ toString total ++
  " — is this satisfactory?*\n" ++
  "Type **yes** (or y/approve) to save and continue, " ++
  "or **no** (or n/retry) to try again with more context."

/-- `handle_chat_stream` of `app.py`: one delivery of a reviewer message to
the verification state machine, with streaming output.  `stream` is the
behaviour of the `stream_answer` call (consulted only in the asking phase)
and `saveErr` the behaviour of the `save_qa_to_docx` call (`none` for
success, `some e` for an exception with text `e`, consulted only at the
final affirm). -/
def handle_chat_stream (message : String) (history : List Msg) (session : Session)
    (stream : StreamResult) (saveErr : Option String) : ChatResult :=
  let phase := session.phase
  if phase = "idle" then
    { yields := [(history ++
        [⟨"user", if message = "" then "(empty)" else message⟩,
         ⟨"assistant", "Please click **Start Verification** to begin."⟩], session, none)],
      sinkCalls := [], streamRequests := [] }
  else if phase = "done" then
    { yields := [(history ++
        [⟨"user", if message = "" then "(empty)" else message⟩,
         ⟨"assistant", "✅ Verification is complete! Download the Q&A report using the button below."⟩],
        session, none)],
      sinkCalls := [], streamRequests := [] }
  else if phase = "asking" then
    let user_msg := pyStrip message
    let base := history ++
      [⟨"user", if user_msg = "" then "(no additional context)" else user_msg⟩]
    let req := [(session.current_question, session.id_text, session.extra_text,
                 user_msg, session.model)]
    match stream with
    | .fail chunks err =>
        { yields := streamYields base session chunks ++
            [(base ++ [⟨"assistant",
               "❌ Error generating answer: " ++ err ++ "\n\nPlease try again."⟩],
              session, none)],
          sinkCalls := [], streamRequests := req }
    | .ok chunks =>
        let accumulated := String.join chunks
        let new_session := { session with
          phase := "waiting_feedback", current_answer := some accumulated }
        { yields := streamYields base session chunks ++
            [(base ++ [⟨"assistant",
               accumulated ++ feedbackPrompt session.current_index session.questions.length⟩],
              new_session, none)],
          sinkCalls := [], streamRequests := req }
  else if phase = "waiting_feedback" then
    let feedback := pyLower (pyStrip message)
    if feedback = "" then
      { yields := [(history ++
          [⟨"assistant", "Please type **yes** to accept the answer or **no** to retry."⟩],
          session, none)],
        sinkCalls := [], streamRequests := [] }
    else
      let base := history ++ [⟨"user", message⟩]
      let words := splitWs feedback
      if intersects words _POSITIVE_WORDS then
        let new_qa := session.approved_qa ++
          [(session.current_question, session.current_answer)]
        let next_idx := session.current_index + 1
        let questions := session.questions
        if next_idx ≥ questions.length then
          let new_session := { session with phase := "done", approved_qa := new_qa }
          match saveErr with
          | none =>
              { yields := [(base ++ [⟨"assistant",
                   "✅ Answer saved! All **" ++ toString new_qa.length ++
                   "** answer(s) approved.\n\n🎉 Verification complete! Download the Q&A report below."⟩],
                 new_session, some session.output_path)],
                sinkCalls := [(new_qa, session.output_path)], streamRequests := [] }
          | some exc =>
              { yields := [(base ++ [⟨"assistant",
                   "❌ Error saving Q&A report: " ++ exc⟩], new_session, none)],
                sinkCalls := [(new_qa, session.output_path)], streamRequests := [] }
        else
          let new_session := { session with
            phase := "asking",
            approved_qa := new_qa,
            current_index := next_idx,
            current_question := questions.getD next_idx "",
            current_answer := none }
          { yields := [(base ++ [⟨"assistant",
               "✅ Answer saved! (" ++ toString new_qa.length ++ "/" ++
               toString questions.length ++ " approved)\n\n**Question " ++
               toString (next_idx + 1) ++ " of " ++ toString questions.length ++
               ":**\n\n> " ++ questions.getD next_idx "" ++
               "\n\nProvide any additional context, or submit with an empty message."⟩],
             new_session, none)],
            sinkCalls := [], streamRequests := [] }
      else if intersects words _NEGATIVE_WORDS then
        let new_session := { session with phase := "asking", current_answer := none }
        { yields := [(base ++ [⟨"assistant",
             "🔄 No problem — let\x27s try again.\n\n**Question " ++
             toString (session.current_index + 1) ++ " of " ++
             toString session.questions.length ++ ":**\n\n> " ++
             session.current_question ++
             "\n\nPlease provide more context or clarification to help generate a better answer."⟩],
           new_session, none)],
          sinkCalls := [], streamRequests := [] }
      else
        { yields := [(history ++ [⟨"user", message⟩] ++ [⟨"assistant",
             "I didn\x27t catch that. Please type **yes** to accept or **no** to retry."⟩],
           session, none)],
          sinkCalls := [], streamRequests := [] }
  else
    { yields := [], sinkCalls := [], streamRequests := [] }

/-- The session binding after the generator finished: the session of the
last yield, or the input session when nothing was yielded. -/
def lastYieldSession (r : ChatResult) (s : Session) : Session :=
  match r.yields.getLast? with
  | some y => y.2.1
  | none => s

/-- The session state after one full delivery of a reviewer message. -/
def nextSession (message : String) (history : List Msg) (session : Session)
    (stream : StreamResult) (saveErr : Option String) : Session :=
  lastYieldSession (handle_chat_stream message history session stream saveErr) session

/-- The three feedback classes of the spec's FeedbackClassifier. -/
inductive Feedback where
  | affirm
  | reject
  | unrecognized
deriving DecidableEq, Repr

/-- FeedbackClassifier following the spec's contract: normalize (trim,
lowercase, split on whitespace into tokens), then `unrecognized` for an
empty normalized utterance, else `affirm` when the token set intersects
the Affirm word set (checked first, so Affirm takes priority), else
`reject` when it intersects the Reject word set, else `unrecognized`. -/
def classify (message : String) : Feedback :=
  let norm := pyLower (pyStrip message)
  if norm = "" then .unrecognized
  else if intersects (splitWs norm) _POSITIVE_WORDS then .affirm
  else if intersects (splitWs norm) _NEGATIVE_WORDS then .reject
  else .unrecognized

/-- The session update performed by the `waiting_feedback` branch of
`handle_chat_stream`, as a function of the feedback class. -/
def feedbackOutcome (s : Session) : Feedback → Session
  | .affirm =>
      let new_qa := s.approved_qa ++ [(s.current_question, s.current_answer)]
      if s.current_index + 1 ≥ s.questions.length then
        { s with phase := "done", approved_qa := new_qa }
      else
        { s with
          phase := "asking",
          approved_qa := new_qa,
          current_index := s.current_index + 1,
          current_question := s.questions.getD (s.current_index + 1) "",
          current_answer := none }
  | .reject => { s with phase := "asking", current_answer := none }
  | .unrecognized => s

/-- The structural invariant of session states: while asking or awaiting
feedback the index is in range, the approved pairs are exactly one per
already-passed question in original order, and the cached current question
agrees with the index; once done, every question has exactly one approved
pair, in original order, and the index rests at the last question. -/
def SessionInv (s : Session) : Prop :=
  (s.phase = "asking" ∨ s.phase = "waiting_feedback" →
    s.current_index < s.questions.length ∧
    s.approved_qa.length = s.current_index ∧
    s.approved_qa.map Prod.fst = s.questions.take s.current_index ∧
    s.current_question = s.questions.getD s.current_index "") ∧
  (s.phase = "done" →
    s.current_index + 1 = s.questions.length ∧
    s.approved_qa.length = s.questions.length ∧
    s.approved_qa.map Prod.fst = s.questions)

/-- The session states reachable through the app: the initial Gradio state,
the result of starting verification, and every session observed in a yield
of the chat handler. -/
inductive Reachable : Session → Prop where
  | init : Reachable idleSession
  | start (id_text : Option String) (questions : List String)
      (model : Option String) (ts : String) :
      Reachable (start_verification id_text questions model ts).2.1
  | startFull (id_text extra_text : Option String) (questions : List String)
      (model : Option String) (ts : String) :
      Reachable (start_verification_full id_text extra_text questions model ts).2.1
  | step (m : String) (h : List Msg) (s : Session) (st : StreamResult)
      (sv : Option String) (y : List Msg × Session × Option String) :
      Reachable s → y ∈ (handle_chat_stream m h s st sv).yields → Reachable y.2.1

theorem take_concat_getD (l : List String) (i : Nat) (hi : i < l.length) :
    l.take i ++ [l.getD i ""] = l.take (i + 1) := by
  rw [List.take_succ]
  simp [List.getD_eq_getElem?_getD, List.getElem?_eq_getElem hi]

theorem sessionInv_idle : SessionInv idleSession := by
  constructor <;> intro hp <;> simp [idleSession] at hp

theorem sessionInv_start (id_text : Option String) (questions : List String)
    (model : Option String) (ts : String) :
    SessionInv (start_verification id_text questions model ts).2.1 := by
  unfold start_verification
  split
  · exact sessionInv_idle
  · split
    · exact sessionInv_idle
    · split
      · exact sessionInv_idle
      · rename_i hne _
        constructor
        · intro _
          refine ⟨?_, by simp [_make_session], by simp [_make_session], by simp [_make_session]⟩
          simpa [_make_session] using List.length_pos.mpr hne
        · intro hp
          simp [_make_session] at hp

theorem sessionInv_startFull (id_text extra_text : Option String)
    (questions : List String) (model : Option String) (ts : String) :
    SessionInv (start_verification_full id_text extra_text questions model ts).2.1 := by
  have h := sessionInv_start id_text questions model ts
  unfold start_verification_full
  dsimp only
  split
  · exact ⟨fun hp => h.1 hp, fun hp => h.2 hp⟩
  · exact h

theorem mem_streamYields {base : List Msg} {s : Session} {chunks : List String}
    {y : List Msg × Session × Option String} (hy : y ∈ streamYields base s chunks) :
    y.2.1 = s := by
  unfold streamYields at hy
  rw [List.mem_map] at hy
  obtain ⟨acc, -, rfl⟩ := hy
  rfl

theorem sessionInv_step (m : String) (h : List Msg) (s : Session)
    (st : StreamResult) (sv : Option String) (hs : SessionInv s) :
    ∀ y ∈ (handle_chat_stream m h s st sv).yields, SessionInv y.2.1 := by
  intro y hy
  by_cases h1 : s.phase = "idle"
  · simp [handle_chat_stream, h1] at hy
    subst hy
    exact hs
  by_cases h2 : s.phase = "done"
  · simp [handle_chat_stream, h1, h2] at hy
    subst hy
    exact hs
  by_cases h3 : s.phase = "asking"
  · have hAsk := hs.1 (Or.inl h3)
    rcases st with chunks | ⟨chunks, err⟩
    · simp [handle_chat_stream, h1, h2, h3] at hy
      rcases hy with hy | hy
      · rw [mem_streamYields hy]
        exact hs
      · subst hy
        exact ⟨fun _ => hAsk, fun hp => by simp at hp⟩
    · simp [handle_chat_stream, h1, h2, h3] at hy
      rcases hy with hy | hy
      · rw [mem_streamYields hy]
        exact hs
      · subst hy
        exact hs
  by_cases h4 : s.phase = "waiting_feedback"
  · have hWf := hs.1 (Or.inr h4)
    obtain ⟨hlt, hlen, hmap, hq⟩ := hWf
    by_cases h5 : pyLower (pyStrip m) = ""
    · simp [handle_chat_stream, h1, h2, h3, h4, h5] at hy
      subst hy
      exact hs
    by_cases h6 : intersects (splitWs (pyLower (pyStrip m))) _POSITIVE_WORDS = true
    · by_cases h7 : s.current_index + 1 ≥ s.questions.length
      · have hEq : s.current_index + 1 = s.questions.length := by omega
        have hdone : SessionInv { s with
            phase := "done"
            approved_qa := s.approved_qa ++ [(s.current_question, s.current_answer)] } := by
          refine ⟨fun hp => by simp at hp, fun _ => ⟨hEq, ?_, ?_⟩⟩
          · simp [hlen]
            omega
          · show (s.approved_qa ++ [(s.current_question, s.current_answer)]).map Prod.fst
              = s.questions
            simp only [List.map_append, List.map_cons, List.map_nil, hmap, hq]
            rw [take_concat_getD s.questions s.current_index hlt, hEq, List.take_length]
        rcases sv with _ | exc
        · simp [handle_chat_stream, h1, h2, h3, h4, h5, h6, h7] at hy
          subst hy
          exact hdone
        · simp [handle_chat_stream, h1, h2, h3, h4, h5, h6, h7] at hy
          subst hy
          exact hdone
      · simp [handle_chat_stream, h1, h2, h3, h4, h5, h6, h7] at hy
        subst hy
        have hlt2 : s.current_index + 1 < s.questions.length := by omega
        refine ⟨fun _ => ⟨hlt2, by simp [hlen], ?_, by simp⟩, fun hp => by simp at hp⟩
        show (s.approved_qa ++ [(s.current_question, s.current_answer)]).map Prod.fst
          = s.questions.take (s.current_index + 1)
        simp only [List.map_append, List.map_cons, List.map_nil, hmap, hq]
        exact take_concat_getD s.questions s.current_index hlt
    by_cases h8 : intersects (splitWs (pyLower (pyStrip m))) _NEGATIVE_WORDS = true
    · simp [handle_chat_stream, h1, h2, h3, h4, h5, h6, h8] at hy
      subst hy
      exact ⟨fun _ => ⟨hlt, hlen, hmap, hq⟩, fun hp => by simp at hp⟩
    · simp [handle_chat_stream, h1, h2, h3, h4, h5, h6, h8] at hy
      subst hy
      exact hs
  · simp [handle_chat_stream, h1, h2, h3, h4] at hy

/-- Every reachable session state satisfies the structural invariant. -/
theorem reachable_sessionInv (s : Session) (hr : Reachable s) : SessionInv s := by
  induction hr with
  | init => exact sessionInv_idle
  | start id_text questions model ts => exact sessionInv_start id_text questions model ts
  | startFull id_text extra_text questions model ts =>
      exact sessionInv_startFull id_text extra_text questions model ts
  | step m h s st sv y _ hy ih => exact sessionInv_step m h s st sv ih y hy

theorem classify_affirm_iff (m : String) :
    classify m = .affirm ↔
      (¬ pyLower (pyStrip m) = "" ∧
        intersects (splitWs (pyLower (pyStrip m))) _POSITIVE_WORDS = true) := by
  unfold classify
  by_cases h5 : pyLower (pyStrip m) = "" <;>
    by_cases h6 : intersects (splitWs (pyLower (pyStrip m))) _POSITIVE_WORDS = true <;>
      by_cases h8 : intersects (splitWs (pyLower (pyStrip m))) _NEGATIVE_WORDS = true <;>
        simp [h5, h6, h8]

theorem classify_reject_iff (m : String) :
    classify m = .reject ↔
      (¬ pyLower (pyStrip m) = "" ∧
        ¬ intersects (splitWs (pyLower (pyStrip m))) _POSITIVE_WORDS = true ∧
        intersects (splitWs (pyLower (pyStrip m))) _NEGATIVE_WORDS = true) := by
  unfold classify
  by_cases h5 : pyLower (pyStrip m) = "" <;>
    by_cases h6 : intersects (splitWs (pyLower (pyStrip m))) _POSITIVE_WORDS = true <;>
      by_cases h8 : intersects (splitWs (pyLower (pyStrip m))) _NEGATIVE_WORDS = true <;>
        simp [h5, h6, h8]

/-- In the `waiting_feedback` phase the handler acts exactly as the spec's
classification pipeline prescribes, for every stream and sink behaviour. -/
theorem waiting_feedback_dispatch (m : String) (h : List Msg) (s : Session)
    (st : StreamResult) (sv : Option String) (hp : s.phase = "waiting_feedback") :
    nextSession m h s st sv = feedbackOutcome s (classify m) := by
  have h1 : ¬ s.phase = "idle" := by simp [hp]
  have h2 : ¬ s.phase = "done" := by simp [hp]
  have h3 : ¬ s.phase = "asking" := by simp [hp]
  by_cases h5 : pyLower (pyStrip m) = ""
  · simp [nextSession, lastYieldSession, handle_chat_stream, h1, h2, h3, hp, h5,
      classify, feedbackOutcome]
  by_cases h6 : intersects (splitWs (pyLower (pyStrip m))) _POSITIVE_WORDS = true
  · by_cases h7 : s.current_index + 1 ≥ s.questions.length
    · rcases sv with _ | exc <;>
        simp [nextSession, lastYieldSession, handle_chat_stream, h1, h2, h3, hp, h5, h6, h7,
          classify, feedbackOutcome]
    · simp [nextSession, lastYieldSession, handle_chat_stream, h1, h2, h3, hp, h5, h6, h7,
        classify, feedbackOutcome]
  by_cases h8 : intersects (splitWs (pyLower (pyStrip m))) _NEGATIVE_WORDS = true
  · simp [nextSession, lastYieldSession, handle_chat_stream, h1, h2, h3, hp, h5, h6, h8,
      classify, feedbackOutcome]
  · simp [nextSession, lastYieldSession, handle_chat_stream, h1, h2, h3, hp, h5, h6, h8,
      classify, feedbackOutcome]

/-- Stepping the machine from any observed yield keeps reachability. -/
theorem reachable_nextSession (m : String) (h : List Msg) (s : Session)
    (st : StreamResult) (sv : Option String) (hr : Reachable s) :
    Reachable (nextSession m h s st sv) := by
  unfold nextSession lastYieldSession
  cases hl : (handle_chat_stream m h s st sv).yields.getLast? with
  | none => exact hr
  | some y => exact Reachable.step m h s st sv y hr (List.mem_of_mem_getLast? hl)

/-- A concrete demonstration run: one question, answered and affirmed. -/
def demoSession0 : Session :=
  (start_verification (some "D") ["Q1"] (some "m") "T").2.1

def demoSession1 : Session := nextSession "" [] demoSession0 (.ok ["A1"]) none

def demoSession2 : Session := nextSession "yes" [] demoSession1 (.ok []) none

theorem demoSession0_reachable : Reachable demoSession0 :=
  Reachable.start (some "D") ["Q1"] (some "m") "T"

theorem demoSession1_reachable : Reachable demoSession1 :=
  reachable_nextSession "" [] demoSession0 (.ok ["A1"]) none demoSession0_reachable

theorem demoSession2_reachable : Reachable demoSession2 :=
  reachable_nextSession "yes" [] demoSession1 (.ok []) none demoSession1_reachable

/-- One driver turn delivered to the machine: the reviewer message, the
transcript passed in, and the behaviour of the two collaborators. -/
structure TurnEvent where
  message : String
  history : List Msg
  stream : StreamResult
  saveErr : Option String
deriving DecidableEq, Repr

/-- Fold one turn over (session, number of report-sink invocations so far). -/
def stepTurn (p : Session × Nat) (e : TurnEvent) : Session × Nat :=
  let r := handle_chat_stream e.message e.history p.1 e.stream e.saveErr
  (lastYieldSession r p.1, p.2 + r.sinkCalls.length)

/-- Run a whole sequence of driver turns, counting report-sink invocations. -/
def runTurns (s : Session) (events : List TurnEvent) : Session × Nat :=
  events.foldl stepTurn (s, 0)

/-- Per step, the report sink is either not invoked (and the session is
still not done) or invoked exactly once (and the session has just become
done); from done the machine is inert and never invokes the sink. -/
theorem sink_step_characterization (m : String) (h : List Msg) (s : Session)
    (st : StreamResult) (sv : Option String) :
    (s.phase = "done" →
      nextSession m h s st sv = s ∧ (handle_chat_stream m h s st sv).sinkCalls = []) ∧
    (¬ s.phase = "done" →
      ((handle_chat_stream m h s st sv).sinkCalls = [] ∧
        ¬ (nextSession m h s st sv).phase = "done") ∨
      ((handle_chat_stream m h s st sv).sinkCalls.length = 1 ∧
        (nextSession m h s st sv).phase = "done")) := by
  constructor
  · intro h2
    by_cases h1 : s.phase = "idle"
    · rw [h1] at h2
      simp at h2
    · simp [nextSession, lastYieldSession, handle_chat_stream, h1, h2]
  · intro h2
    by_cases h1 : s.phase = "idle"
    · exact Or.inl (by simp [nextSession, lastYieldSession, handle_chat_stream, h1, h2])
    by_cases h3 : s.phase = "asking"
    · refine Or.inl ⟨?_, ?_⟩
      · rcases st with chunks | ⟨chunks, err⟩ <;>
          simp [handle_chat_stream, h1, h2, h3]
      · rcases st with chunks | ⟨chunks, err⟩ <;>
          simp [nextSession, lastYieldSession, handle_chat_stream, h1, h2, h3,
            List.getLast?_concat, h3]
    by_cases h4 : s.phase = "waiting_feedback"
    · by_cases h5 : pyLower (pyStrip m) = ""
      · exact Or.inl
          (by simp [nextSession, lastYieldSession, handle_chat_stream, h1, h2, h3, h4, h5])
      by_cases h6 : intersects (splitWs (pyLower (pyStrip m))) _POSITIVE_WORDS = true
      · by_cases h7 : s.current_index + 1 ≥ s.questions.length
        · refine Or.inr ?_
          rcases sv with _ | exc <;>
            simp [nextSession, lastYieldSession, handle_chat_stream, h1, h2, h3, h4, h5, h6, h7]
        · exact Or.inl (by simp [nextSession, lastYieldSession, handle_chat_stream,
            h1, h2, h3, h4, h5, h6, h7])
      by_cases h8 : intersects (splitWs (pyLower (pyStrip m))) _NEGATIVE_WORDS = true
      · exact Or.inl (by simp [nextSession, lastYieldSession, handle_chat_stream,
          h1, h2, h3, h4, h5, h6, h8])
      · exact Or.inl (by simp [nextSession, lastYieldSession, handle_chat_stream,
          h1, h2, h3, h4, h5, h6, h8, h4])
    · exact Or.inl (by simp [nextSession, lastYieldSession, handle_chat_stream,
        h1, h2, h3, h4])

/-- The sink-count invariant of a session paired with the number of report
writes that happened so far. -/
def SinkCount (p : Session × Nat) : Prop :=
  (¬ p.1.phase = "done" ∧ p.2 = 0) ∨ (p.1.phase = "done" ∧ p.2 = 1)

theorem runTurns_sinkCount (events : List TurnEvent) (p : Session × Nat)
    (hp : SinkCount p) : SinkCount (List.foldl stepTurn p events) := by
  induction events generalizing p with
  | nil => exact hp
  | cons e rest ih =>
      refine ih (stepTurn p e) ?_
      obtain ⟨s, k⟩ := p
      have hc := sink_step_characterization e.message e.history s e.stream e.saveErr
      have hstep : stepTurn (s, k) e =
          (nextSession e.message e.history s e.stream e.saveErr,
            k + (handle_chat_stream e.message e.history s e.stream e.saveErr).sinkCalls.length) :=
        rfl
      rcases hp with ⟨hnd, hk⟩ | ⟨hd, hk⟩
      · rcases hc.2 hnd with ⟨hsc, hnd'⟩ | ⟨hsc, hd'⟩
        · exact Or.inl ⟨by rw [hstep]; exact hnd', by rw [hstep]; simpa [hsc] using hk⟩
        · exact Or.inr ⟨by rw [hstep]; exact hd', by rw [hstep]; simpa [hsc] using hk⟩
      · obtain ⟨hnext, hsc⟩ := hc.1 hd
        refine Or.inr ⟨?_, ?_⟩
        · rw [hstep]
          simpa [hnext] using hd
        · rw [hstep]
          simpa [hsc] using hk

/-- C1 fails on the code: after affirming the answer to the single
question, the reachable done state holds one approved pair while
`current_index` is still 0 (the final affirm transition at app.py:293 does
not advance it), so `len(approved_qa) ≤ current_index` is violated and
`current_index` has not reached `len(questions)`. -/
theorem C1_counterexample :
    ∃ s : Session, Reachable s ∧ s.phase = "done" ∧
      ¬ (s.approved_qa.length ≤ s.current_index) ∧
      s.current_index ≠ s.questions.length :=
  ⟨demoSession2, demoSession2_reachable, by decide, by decide, by decide⟩

/-- C1 (amended): for every reachable session,
`len(approved_qa) ≤ current_index < len(questions)` holds while asking or
awaiting feedback; the final affirm transition into done leaves
`current_index` unchanged at `len(questions) - 1`, so in the done state
`len(approved_qa) = len(questions) = current_index + 1` and
`current_index` never reaches `len(questions)`. -/
theorem C1_amended_invariant (s : Session) (hr : Reachable s) :
    ((s.phase = "asking" ∨ s.phase = "waiting_feedback") →
      s.approved_qa.length ≤ s.current_index ∧
      s.current_index < s.questions.length) ∧
    (s.phase = "done" →
      s.approved_qa.length = s.questions.length ∧
      s.current_index + 1 = s.questions.length) := by
  have hi := reachable_sessionInv s hr
  constructor
  · intro hp
    obtain ⟨hlt, hlen, -, -⟩ := hi.1 hp
    omega
  · intro hp
    obtain ⟨hidx, hlen, -⟩ := hi.2 hp
    exact ⟨hlen, hidx⟩

/-- C1 witness: the amended invariant, instantiated at the concrete
reachable session `demoSession1`. -/
theorem C1_witness :
    ((demoSession1.phase = "asking" ∨ demoSession1.phase = "waiting_feedback") →
      demoSession1.approved_qa.length ≤ demoSession1.current_index ∧
      demoSession1.current_index < demoSession1.questions.length) ∧
    (demoSession1.phase = "done" →
      demoSession1.approved_qa.length = demoSession1.questions.length ∧
      demoSession1.current_index + 1 = demoSession1.questions.length) :=
  C1_amended_invariant demoSession1 demoSession1_reachable

/-- C3: for every raw reviewer utterance delivered in the
`waiting_feedback` phase, the handler behaves exactly as the
normalize-then-classify contract: it strips and lowercases the message,
splits it on whitespace, treats an empty normalized utterance as
unrecognized, otherwise checks the Affirm word set first (so Affirm takes
priority when both sets intersect), then the Reject set, and updates the
session according to the resulting class. -/
theorem C3_classification_dispatch (m : String) (h : List Msg) (s : Session)
    (st : StreamResult) (sv : Option String) (hp : s.phase = "waiting_feedback") :
    nextSession m h s st sv = feedbackOutcome s (classify m) :=
  waiting_feedback_dispatch m h s st sv hp

/-- C3 witness: the utterance "yes and no" intersects both word sets and
classifies as Affirm, and the handler takes the affirm transition on the
concrete session `demoSession1`. -/
theorem C3_witness :
    nextSession "yes and no" [] demoSession1 (.ok []) none =
      feedbackOutcome demoSession1 (classify "yes and no") ∧
    classify "yes and no" = .affirm :=
  ⟨C3_classification_dispatch "yes and no" [] demoSession1 (.ok []) none (by decide),
   by decide⟩

/-- C4: in `waiting_feedback`, a message that classifies as Reject returns
the session to the asking phase with `current_answer` cleared to `None`
and every other field — `approved_qa`, `current_index`, `questions`,
`current_question`, `output_path`, `model`, `id_text`, `extra_text` —
unchanged. -/
theorem C4_reject_frame (m : String) (h : List Msg) (s : Session)
    (st : StreamResult) (sv : Option String) (hp : s.phase = "waiting_feedback")
    (hc : classify m = .reject) :
    nextSession m h s st sv = { s with phase := "asking", current_answer := none } := by
  rw [waiting_feedback_dispatch m h s st sv hp, hc]
  rfl

/-- C4 witness: rejecting with "no" on the concrete session
`demoSession1`. -/
theorem C4_witness :
    nextSession "no" [] demoSession1 (.ok []) none =
      { demoSession1 with phase := "asking", current_answer := none } ∧
    classify "no" = .reject :=
  ⟨C4_reject_frame "no" [] demoSession1 (.ok []) none (by decide) (by decide),
   by decide⟩

/-- C9: in every reachable session in the asking or waiting_feedback
phase, the redundant `current_question` field equals
`questions[current_index]` (with the index in range), so the answer
generated and the pair appended on affirm belong to the question at the
current index. -/
theorem C9_current_question_agrees (s : Session) (hr : Reachable s)
    (hp : s.phase = "asking" ∨ s.phase = "waiting_feedback") :
    s.current_index < s.questions.length ∧
    s.current_question = s.questions.getD s.current_index "" := by
  have hi := reachable_sessionInv s hr
  obtain ⟨hlt, -, -, hq⟩ := hi.1 hp
  exact ⟨hlt, hq⟩

/-- C9 witness: the field agreement at the concrete reachable
waiting_feedback session `demoSession1`. -/
theorem C9_witness :
    demoSession1.current_index < demoSession1.questions.length ∧
    demoSession1.current_question =
      demoSession1.questions.getD demoSession1.current_index "" :=
  C9_current_question_agrees demoSession1 demoSession1_reachable (by decide)

/-- The final affirm transition invokes the report sink exactly once, with
the completed pair list and the session's output path. -/
theorem final_affirm_sinkCalls (m : String) (h : List Msg) (s : Session)
    (st : StreamResult) (sv : Option String)
    (hp : s.phase = "waiting_feedback")
    (h5 : ¬ pyLower (pyStrip m) = "")
    (h6 : intersects (splitWs (pyLower (pyStrip m))) _POSITIVE_WORDS = true)
    (h7 : s.current_index + 1 ≥ s.questions.length) :
    (handle_chat_stream m h s st sv).sinkCalls =
      [(s.approved_qa ++ [(s.current_question, s.current_answer)], s.output_path)] := by
  have h1 : ¬ s.phase = "idle" := by simp [hp]
  have h2 : ¬ s.phase = "done" := by simp [hp]
  have h3 : ¬ s.phase = "asking" := by simp [hp]
  rcases sv with _ | exc <;> simp [handle_chat_stream, h1, h2, h3, hp, h5, h6, h7]

/-- Whenever the handler invokes the report sink at all, the step was the
final affirm transition of the waiting_feedback phase. -/
theorem sinkCalls_ne_nil (m : String) (h : List Msg) (s : Session)
    (st : StreamResult) (sv : Option String)
    (hne : (handle_chat_stream m h s st sv).sinkCalls ≠ []) :
    s.phase = "waiting_feedback" ∧ ¬ pyLower (pyStrip m) = "" ∧
    intersects (splitWs (pyLower (pyStrip m))) _POSITIVE_WORDS = true ∧
    s.current_index + 1 ≥ s.questions.length := by
  by_cases h1 : s.phase = "idle"
  · exact absurd (by simp [handle_chat_stream, h1]) hne
  by_cases h2 : s.phase = "done"
  · exact absurd (by simp [handle_chat_stream, h1, h2]) hne
  by_cases h3 : s.phase = "asking"
  · rcases st with chunks | ⟨chunks, err⟩ <;>
      exact absurd (by simp [handle_chat_stream, h1, h2, h3]) hne
  by_cases h4 : s.phase = "waiting_feedback"
  · by_cases h5 : pyLower (pyStrip m) = ""
    · exact absurd (by simp [handle_chat_stream, h1, h2, h3, h4, h5]) hne
    by_cases h6 : intersects (splitWs (pyLower (pyStrip m))) _POSITIVE_WORDS = true
    · by_cases h7 : s.current_index + 1 ≥ s.questions.length
      · exact ⟨h4, h5, h6, h7⟩
      · exact absurd (by simp [handle_chat_stream, h1, h2, h3, h4, h5, h6, h7]) hne
    by_cases h8 : intersects (splitWs (pyLower (pyStrip m))) _NEGATIVE_WORDS = true
    · exact absurd (by simp [handle_chat_stream, h1, h2, h3, h4, h5, h6, h8]) hne
    · exact absurd (by simp [handle_chat_stream, h1, h2, h3, h4, h5, h6, h8]) hne
  · exact absurd (by simp [handle_chat_stream, h1, h2, h3, h4]) hne

/-- C2: affirming in waiting_feedback with the last question present moves
the session to done and invokes the report sink exactly once with the
completed pair list — of length `len(questions)` and with the questions in
original order — at the session's output path; the sink is never invoked
from any other transition, and over any whole sequence of driver turns it
is invoked at most once, exactly once when the run ends done. -/
theorem C2_final_affirm_report (m : String) (h : List Msg) (s : Session)
    (st : StreamResult) (sv : Option String) (hr : Reachable s) :
    (s.phase = "waiting_feedback" → classify m = .affirm →
      s.current_index + 1 = s.questions.length →
      (nextSession m h s st sv).phase = "done" ∧
      (handle_chat_stream m h s st sv).sinkCalls =
        [(s.approved_qa ++ [(s.current_question, s.current_answer)], s.output_path)] ∧
      (s.approved_qa ++ [(s.current_question, s.current_answer)]).length =
        s.questions.length ∧
      (s.approved_qa ++ [(s.current_question, s.current_answer)]).map Prod.fst =
        s.questions) ∧
    ((handle_chat_stream m h s st sv).sinkCalls ≠ [] →
      s.phase = "waiting_feedback" ∧ classify m = .affirm ∧
      s.current_index + 1 = s.questions.length) ∧
    (∀ events : List TurnEvent, ¬ s.phase = "done" →
      (runTurns s events).2 ≤ 1 ∧
      ((runTurns s events).1.phase = "done" → (runTurns s events).2 = 1)) := by
  refine ⟨?_, ?_, ?_⟩
  · intro hp hc hlast
    obtain ⟨h5, h6⟩ := (classify_affirm_iff m).mp hc
    have h7 : s.current_index + 1 ≥ s.questions.length := by omega
    obtain ⟨hlt, hlen, hmap, hq⟩ := (reachable_sessionInv s hr).1 (Or.inr hp)
    refine ⟨?_, final_affirm_sinkCalls m h s st sv hp h5 h6 h7, ?_, ?_⟩
    · rw [waiting_feedback_dispatch m h s st sv hp, hc]
      simp [feedbackOutcome, h7]
    · simp [hlen]
      omega
    · simp only [List.map_append, List.map_cons, List.map_nil, hmap, hq]
      rw [take_concat_getD s.questions s.current_index hlt, hlast, List.take_length]
  · intro hne
    obtain ⟨hp, h5, h6, h7⟩ := sinkCalls_ne_nil m h s st sv hne
    obtain ⟨hlt, -, -, -⟩ := (reachable_sessionInv s hr).1 (Or.inr hp)
    exact ⟨hp, (classify_affirm_iff m).mpr ⟨h5, h6⟩, by omega⟩
  · intro events hnd
    have hsc := runTurns_sinkCount events (s, 0) (Or.inl ⟨hnd, rfl⟩)
    rcases hsc with ⟨hnd', hk⟩ | ⟨hd', hk⟩
    · exact ⟨by simp [runTurns, hk], fun hdone => absurd hdone hnd'⟩
    · exact ⟨by simp [runTurns, hk], fun _ => hk⟩

/-- C2 witness: affirming with "yes" on the concrete waiting_feedback
session `demoSession1`, which holds the last (only) question. -/
theorem C2_witness :
    (nextSession "yes" [] demoSession1 (.ok []) none).phase = "done" ∧
    (handle_chat_stream "yes" [] demoSession1 (.ok []) none).sinkCalls =
      [(demoSession1.approved_qa ++
          [(demoSession1.current_question, demoSession1.current_answer)],
        demoSession1.output_path)] ∧
    (demoSession1.approved_qa ++
        [(demoSession1.current_question, demoSession1.current_answer)]).length =
      demoSession1.questions.length ∧
    (demoSession1.approved_qa ++
        [(demoSession1.current_question, demoSession1.current_answer)]).map Prod.fst =
      demoSession1.questions :=
  (C2_final_affirm_report "yes" [] demoSession1 (.ok []) none
      demoSession1_reachable).1 (by decide) (by decide) (by decide)

/-- C5: when the answer stream raises during the asking phase, every
yielded session is the unchanged input session (phase still asking,
approved_qa, current_index and current_answer untouched), no report write
happens, the last yield shows a visible error message appended to the
transcript, and a subsequent reviewer message re-issues a stream request
for the same current question — the failure is never fatal to the
session. -/
theorem C5_generation_failure (m : String) (h : List Msg) (s : Session)
    (chunks : List String) (err : String) (sv : Option String)
    (hp : s.phase = "asking") :
    (∀ y ∈ (handle_chat_stream m h s (.fail chunks err) sv).yields, y.2.1 = s) ∧
    (handle_chat_stream m h s (.fail chunks err) sv).sinkCalls = [] ∧
    (handle_chat_stream m h s (.fail chunks err) sv).yields.getLast? =
      some (h ++
        [⟨"user", if pyStrip m = "" then "(no additional context)" else pyStrip m⟩,
         ⟨"assistant", "❌ Error generating answer: " ++ err ++ "\n\nPlease try again."⟩],
        s, none) ∧
    (∀ (m2 : String) (h2 : List Msg) (st2 : StreamResult) (sv2 : Option String),
      (handle_chat_stream m2 h2 s st2 sv2).streamRequests =
        [(s.current_question, s.id_text, s.extra_text, pyStrip m2, s.model)]) := by
  have h1 : ¬ s.phase = "idle" := by simp [hp]
  have h2 : ¬ s.phase = "done" := by simp [hp]
  refine ⟨?_, ?_, ?_, ?_⟩
  · intro y hy
    simp [handle_chat_stream, h1, h2, hp] at hy
    rcases hy with hy | hy
    · exact mem_streamYields hy
    · rw [hy]
  · simp [handle_chat_stream, h1, h2, hp]
  · simp [handle_chat_stream, h1, h2, hp, List.getLast?_concat]
  · intro m2 h2' st2 sv2
    rcases st2 with c2 | ⟨c2, e2⟩ <;> simp [handle_chat_stream, h1, h2, hp]

/-- C5 witness: a concrete failing stream on the concrete asking session
`demoSession0`, and the retry request of a follow-up message. -/
theorem C5_witness :
    ((handle_chat_stream "ctx" [] demoSession0 (.fail ["partial"] "boom") none).yields.headD
        ([], idleSession, none)).2.1 = demoSession0 ∧
    (handle_chat_stream "ctx" [] demoSession0 (.fail ["partial"] "boom") none).sinkCalls = [] ∧
    (handle_chat_stream "retry now" [] demoSession0 (.ok ["A2"]) none).streamRequests =
      [(demoSession0.current_question, demoSession0.id_text, demoSession0.extra_text,
        pyStrip "retry now", demoSession0.model)] :=
  ⟨(C5_generation_failure "ctx" [] demoSession0 ["partial"] "boom" none (by decide)).1 _
      (by decide),
   (C5_generation_failure "ctx" [] demoSession0 ["partial"] "boom" none (by decide)).2.1,
   (C5_generation_failure "ctx" [] demoSession0 ["partial"] "boom" none (by decide)).2.2.2
      "retry now" [] (.ok ["A2"]) none⟩

/-- C6: when the report sink raises at the final affirm transition, the
error is surfaced as a displayed assistant message and no report location
is returned, but the session still transitions to done with the fully
populated pair list — the very same end state as on a successful write,
which does return the output path. -/
theorem C6_save_failure_still_done (m : String) (h : List Msg) (s : Session)
    (st : StreamResult) (err : String) (hr : Reachable s)
    (hp : s.phase = "waiting_feedback") (hc : classify m = .affirm)
    (hlast : s.current_index + 1 = s.questions.length) :
    (nextSession m h s st (some err)).phase = "done" ∧
    (nextSession m h s st (some err)).approved_qa.length = s.questions.length ∧
    nextSession m h s st (some err) = nextSession m h s st none ∧
    (handle_chat_stream m h s st (some err)).yields.map (fun y => y.1.getLast?) =
      [some ⟨"assistant", "❌ Error saving Q&A report: " ++ err⟩] ∧
    (handle_chat_stream m h s st (some err)).yields.map (fun y => y.2.2) = [none] ∧
    (handle_chat_stream m h s st none).yields.map (fun y => y.2.2) =
      [some s.output_path] := by
  obtain ⟨h5, h6⟩ := (classify_affirm_iff m).mp hc
  have h7 : s.current_index + 1 ≥ s.questions.length := by omega
  obtain ⟨hlt, hlen, -, -⟩ := (reachable_sessionInv s hr).1 (Or.inr hp)
  have h1 : ¬ s.phase = "idle" := by simp [hp]
  have h2 : ¬ s.phase = "done" := by simp [hp]
  have h3 : ¬ s.phase = "asking" := by simp [hp]
  refine ⟨?_, ?_, ?_, ?_, ?_, ?_⟩
  · rw [waiting_feedback_dispatch m h s st (some err) hp, hc]
    simp [feedbackOutcome, h7]
  · rw [waiting_feedback_dispatch m h s st (some err) hp, hc]
    simp [feedbackOutcome, h7, hlen]
    omega
  · rw [waiting_feedback_dispatch m h s st (some err) hp,
      waiting_feedback_dispatch m h s st none hp]
  · simp [handle_chat_stream, h1, h2, h3, hp, h5, h6, h7, List.getLast?_concat]
  · simp [handle_chat_stream, h1, h2, h3, hp, h5, h6, h7]
  · simp [handle_chat_stream, h1, h2, h3, hp, h5, h6, h7]

/-- C6 witness: a concrete failing report write while affirming the last
question of the concrete session `demoSession1`. -/
theorem C6_witness :
    (nextSession "yes" [] demoSession1 (.ok []) (some "disk full")).phase = "done" ∧
    (nextSession "yes" [] demoSession1 (.ok []) (some "disk full")).approved_qa.length =
      demoSession1.questions.length ∧
    nextSession "yes" [] demoSession1 (.ok []) (some "disk full") =
      nextSession "yes" [] demoSession1 (.ok []) none ∧
    (handle_chat_stream "yes" [] demoSession1 (.ok []) (some "disk full")).yields.map
        (fun y => y.1.getLast?) =
      [some ⟨"assistant", "❌ Error saving Q&A report: " ++ "disk full"⟩] ∧
    (handle_chat_stream "yes" [] demoSession1 (.ok []) (some "disk full")).yields.map
        (fun y => y.2.2) = [none] ∧
    (handle_chat_stream "yes" [] demoSession1 (.ok []) none).yields.map
        (fun y => y.2.2) = [some demoSession1.output_path] :=
  C6_save_failure_still_done "yes" [] demoSession1 (.ok []) "disk full"
    demoSession1_reachable (by decide) (by decide) (by decide)

/-- C7: done is terminal and idle is inert under reviewer messages: in
either phase the handler emits exactly one informative assistant response,
leaves the session state unchanged, performs no report write and no stream
request, and — being a total function — never raises. -/
theorem C7_idle_done_inert (m : String) (h : List Msg) (s : Session)
    (st : StreamResult) (sv : Option String)
    (hp : s.phase = "idle" ∨ s.phase = "done") :
    (∃ reply, ¬ reply = "" ∧ (handle_chat_stream m h s st sv).yields =
      [(h ++ [⟨"user", if m = "" then "(empty)" else m⟩, ⟨"assistant", reply⟩],
        s, none)]) ∧
    nextSession m h s st sv = s ∧
    (handle_chat_stream m h s st sv).sinkCalls = [] ∧
    (handle_chat_stream m h s st sv).streamRequests = [] := by
  rcases hp with hp | hp
  · refine ⟨⟨"Please click **Start Verification** to begin.", by simp, ?_⟩, ?_, ?_, ?_⟩ <;>
      simp [nextSession, lastYieldSession, handle_chat_stream, hp]
  · have h1 : ¬ s.phase = "idle" := by simp [hp]
    refine ⟨⟨"✅ Verification is complete! Download the Q&A report using the button below.",
        by simp, ?_⟩, ?_, ?_, ?_⟩ <;>
      simp [nextSession, lastYieldSession, handle_chat_stream, h1, hp]

/-- C7 witness: a reviewer message delivered to the concrete done session
`demoSession2` and to the initial idle session both leave the state
unchanged. -/
theorem C7_witness :
    nextSession "hello" [] demoSession2 (.ok []) none = demoSession2 ∧
    (handle_chat_stream "hello" [] demoSession2 (.ok []) none).sinkCalls = [] ∧
    nextSession "hi" [] idleSession (.ok []) none = idleSession :=
  ⟨(C7_idle_done_inert "hello" [] demoSession2 (.ok []) none (Or.inr (by decide))).2.1,
   (C7_idle_done_inert "hello" [] demoSession2 (.ok []) none (Or.inr (by decide))).2.2.1,
   (C7_idle_done_inert "hi" [] idleSession (.ok []) none (Or.inl (by decide))).2.1⟩

/-- C8: starting verification with a missing disclosure text, an empty
question list or an invalid model never leaves idle: the returned session
is exactly the idle session, the transcript is a single diagnostic
assistant message, no report path is returned, and
`start_verification_full` behaves the same — no asking-phase session is
created. -/
theorem C8_start_guards (id_text extra_text : Option String)
    (questions : List String) (model : Option String) (ts : String)
    (hbad : falsyOpt id_text = true ∨ questions = [] ∨ invalidModel model = true) :
    (start_verification id_text questions model ts).2.1 = idleSession ∧
    (start_verification id_text questions model ts).2.1.phase = "idle" ∧
    (∃ diag, (start_verification id_text questions model ts).1 =
      [⟨"assistant", diag⟩]) ∧
    (start_verification id_text questions model ts).2.2 = none ∧
    (start_verification_full id_text extra_text questions model ts).2.1 =
      idleSession := by
  by_cases hf : falsyOpt id_text = true
  · refine ⟨?_, ?_, ⟨"⚠ Please load documents first using **Load Documents**.", ?_⟩, ?_, ?_⟩ <;>
      simp [start_verification_full, start_verification, hf, idleSession]
  by_cases hq : questions = []
  · refine ⟨?_, ?_,
      ⟨"⚠ No questions (comments) found in the patent claim document.\n\n" ++
       "Add Word comments to your patent claim .docx — each comment becomes a verification question.",
       ?_⟩, ?_, ?_⟩ <;>
      simp [start_verification_full, start_verification, hf, hq, idleSession]
  by_cases hm : invalidModel model = true
  · refine ⟨?_, ?_, ⟨"⚠ Please select a valid ollama model.", ?_⟩, ?_, ?_⟩ <;>
      simp [start_verification_full, start_verification, hf, hq, hm, idleSession]
  · rcases hbad with hbad | hbad | hbad
    · exact absurd hbad hf
    · exact absurd hbad hq
    · exact absurd hbad hm

/-- C8 witness: starting with a loaded disclosure and a valid model but an
empty question list stays idle. -/
theorem C8_witness :
    (start_verification (some "D") [] (some "m") "T").2.1 = idleSession ∧
    (start_verification (some "D") [] (some "m") "T").2.2 = none :=
  ⟨(C8_start_guards (some "D") (some "E") [] (some "m") "T" (Or.inr (Or.inl rfl))).1,
   (C8_start_guards (some "D") (some "E") [] (some "m") "T" (Or.inr (Or.inl rfl))).2.2.2.1⟩

theorem mem_streamYields_fst {base : List Msg} {s : Session} {chunks : List String}
    {y : List Msg × Session × Option String} (hy : y ∈ streamYields base s chunks) :
    ∃ msg, y.1 = base ++ [msg] := by
  unfold streamYields at hy
  rw [List.mem_map] at hy
  obtain ⟨acc, -, rfl⟩ := hy
  exact ⟨_, rfl⟩

/-- C10: for every phase, input transcript and input session, every
transcript the handler yields extends the input transcript: the input is a
prefix of each yielded history, so earlier turns are never rewritten,
reordered or dropped — only elements beyond the input are appended or
updated during streaming.  (The handler is a pure function of the session
value; every changed state it yields is a freshly built record.) -/
theorem C10_history_prefix (m : String) (h : List Msg) (s : Session)
    (st : StreamResult) (sv : Option String) :
    ∀ y ∈ (handle_chat_stream m h s st sv).yields, List.IsPrefix h y.1 := by
  intro y hy
  by_cases h1 : s.phase = "idle"
  · simp [handle_chat_stream, h1] at hy
    rw [hy]
    exact List.prefix_append h _
  by_cases h2 : s.phase = "done"
  · simp [handle_chat_stream, h1, h2] at hy
    rw [hy]
    exact List.prefix_append h _
  by_cases h3 : s.phase = "asking"
  · rcases st with chunks | ⟨chunks, err⟩ <;>
    · simp [handle_chat_stream, h1, h2, h3] at hy
      rcases hy with hy | hy
      · obtain ⟨msg, hmsg⟩ := mem_streamYields_fst hy
        rw [hmsg, List.append_assoc]
        exact List.prefix_append h _
      · rw [hy]
        exact List.prefix_append h _
  by_cases h4 : s.phase = "waiting_feedback"
  · by_cases h5 : pyLower (pyStrip m) = ""
    · simp [handle_chat_stream, h1, h2, h3, h4, h5] at hy
      rw [hy]
      exact List.prefix_append h _
    by_cases h6 : intersects (splitWs (pyLower (pyStrip m))) _POSITIVE_WORDS = true
    · by_cases h7 : s.current_index + 1 ≥ s.questions.length
      · rcases sv with _ | exc <;>
        · simp [handle_chat_stream, h1, h2, h3, h4, h5, h6, h7] at hy
          rw [hy]
          exact List.prefix_append h _
      · simp [handle_chat_stream, h1, h2, h3, h4, h5, h6, h7] at hy
        rw [hy]
        exact List.prefix_append h _
    by_cases h8 : intersects (splitWs (pyLower (pyStrip m))) _NEGATIVE_WORDS = true
    · simp [handle_chat_stream, h1, h2, h3, h4, h5, h6, h8] at hy
      rw [hy]
      exact List.prefix_append h _
    · simp [handle_chat_stream, h1, h2, h3, h4, h5, h6, h8] at hy
      rw [hy]
      exact List.prefix_append h _
  · simp [handle_chat_stream, h1, h2, h3, h4] at hy

/-- C10 witness: a concrete transcript is a prefix of the transcript
yielded for an unrecognized reply on the concrete session
`demoSession1`. -/
theorem C10_witness :
    List.IsPrefix [Msg.mk "user" "hi"]
      ((handle_chat_stream "maybe" [Msg.mk "user" "hi"] demoSession1
          (.ok []) none).yields.headD ([], idleSession, none)).1 :=
  C10_history_prefix "maybe" [Msg.mk "user" "hi"] demoSession1 (.ok []) none _ (by decide)

end DraftClaimVerifier
